import Mathlib

/-!
Verification of the credentials repository: the fallback resolver
(src/chained.rs) and the Vault secret-store backend (src/vault.rs),
shallowly embedded in Lean 4.

Conventions of the embedding:
* Rust BTreeMap values are association lists; only the operations the
  source uses (get, insert, contains_key) are modelled.
* BoxedError values in this code are always built from message strings
  (err("...") in chained.rs, From::from(format!(...)) in vault.rs), so
  they are modelled as String.
* The HTTP transport is the external capability the spec describes: a
  function from a world state and a request (url plus X-Vault-Token
  header) to a decoded Secret or an error, together with the next world
  state.  The world state type is a parameter, so a theorem quantified
  over all transports can only leave the world unchanged by never
  calling the transport.
* A Rust method taking &mut self becomes a function returning the
  updated value; the one reachable panic site (the unwrap in vault get)
  is modelled by an Option result, none standing for the panic.
-/

/-- Association-list lookup, modelling BTreeMap::get for the maps used
by the source (secret data bags and the secret cache). -/
def getKV {α : Type} : List (String × α) → String → Option α
  | [], _ => none
  | (k, v) :: rest, key => if k = key then some v else getKV rest key

/-- Association-list insert, modelling BTreeMap::insert.  The source
only ever inserts a key that is absent, so shadowing never arises. -/
def putKV {α : Type} (m : List (String × α)) (key : String) (v : α) :
    List (String × α) :=
  (key, v) :: m

/-- Models BTreeMap::contains_key. -/
def containsKV {α : Type} (m : List (String × α)) (key : String) : Bool :=
  (getKV m key).isSome

/-- Errors: BoxedError values in this code always carry a message
string, so the message is the model. -/
abbrev BoxedError := String

/-- Location in Vault, from secretfile.rs as consumed by vault.rs.  The
match in vault get is exhaustive with the arms None and
Some(Location::Keyed(path, key)), so Keyed is the only variant the
consumed source has. -/
inductive Location : Type
  | Keyed (path key : String)
deriving DecidableEq, Repr

/-- The Secretfile: the location table mapping credential names to
locations (an external collaborator, consumed already parsed). -/
structure Secretfile : Type where
  entries : List (String × Location)
deriving DecidableEq, Repr

/-- Secretfile lookup of a credential name. -/
def Secretfile.get (sf : Secretfile) (credential : String) : Option Location :=
  getKV sf.entries credential

/-- Secret data retrieved from Vault (struct Secret in vault.rs). -/
structure Secret : Type where
  data : List (String × String)
  lease_duration : Nat
deriving DecidableEq, Repr

/-- An HTTP GET request as built by get_secret: the url and the value
of the X-Vault-Token header. -/
structure HttpGet : Type where
  url : String
  xVaultToken : String
deriving DecidableEq, Repr

/-- The transport capability used by get_secret: hyper send plus body
read plus json decode, an external collaborator.  It consumes a world
state of type w and yields the decoded Secret or a boxed error. -/
abbrev Transport (w : Type) := w → HttpGet → Except BoxedError Secret × w

/-- Keep a URL string up to and including its last slash: the RFC 3986
merge step used when a relative reference such as v1/secret/foo is
resolved against a base URL. -/
def baseToLastSlash (s : String) : String :=
  String.mk ((s.toList.reverse.dropWhile (fun ch => ch ≠ '/')).reverse)

/-- Models Url::join from hyper as used by get_secret, by the RFC 3986
merge step alone: the relative reference "v1/" ++ path never starts
with a slash or a scheme, so the resolution keeps the base URL through
its last slash and appends the reference.  The real rust-url join also
removes "." and ".." segments and percent-encodes characters outside
the path set, which this model leaves out; it therefore agrees with
the program exactly on references that contain no dot segments and
only characters the encoder keeps verbatim (see pathSafe and
noDotSegments below), and the theorem about the URL string carries
those hypotheses.  The other theorems use the URL only as a token
standing for the fetched path, for which the merge model is enough. -/
def urlJoin (base rel : String) : String :=
  baseToLastSlash base ++ rel

/-- Characters rust-url serialises verbatim in a URL path: ASCII
letters and digits plus punctuation outside every path encode set
(and outside the escape-introducing percent and the backslash, which
WHATWG treats specially).  A conservative whitelist: everything
outside it may be percent-encoded by the program. -/
def pathSafeChar (ch : Char) : Bool :=
  ch.isAlphanum || "-._~!$&()*+,;=:@/".toList.contains ch

/-- Every character of the string is kept verbatim by the URL path
encoder. -/
def pathSafe (p : String) : Bool :=
  p.toList.all pathSafeChar

/-- Split a character list into its slash-separated segments. -/
def splitSegs : List Char → List (List Char)
  | [] => [[]]
  | ch :: rest =>
    let r := splitSegs rest
    if ch = '/' then [] :: r
    else
      match r with
      | [] => [[ch]]
      | seg :: rest2 => (ch :: seg) :: rest2

/-- No slash-separated segment of the path is "." or "..", so the
dot-segment removal of the real join leaves the reference unchanged. -/
def noDotSegments (p : String) : Bool :=
  (splitSegs p.toList).all (fun seg => !(seg == ['.'] || seg == ['.', '.']))

/-- State of the Vault client (struct Client in vault.rs): server
address, access token, the Secretfile, and the local cache of secrets
keyed by path.  The hyper client itself is passed as a Transport. -/
structure VaultClient : Type where
  addr : String
  token : String
  secretfile : Secretfile
  secrets : List (String × Secret)
deriving Repr

/-- The URL get_secret builds for a path. -/
def vaultUrl (c : VaultClient) (path : String) : String :=
  urlJoin c.addr ("v1/" ++ path)

/-- get_secret from vault.rs: build the url by joining "v1/" ++ path
against the base address and issue the GET carrying the token in the
X-Vault-Token header; send, body read and json decode are the transport
capability. -/
def get_secret {w : Type} (http : Transport w) (world : w) (c : VaultClient)
    (path : String) : Except BoxedError Secret × w :=
  http world { url := vaultUrl c path, xVaultToken := c.token }

/-- The tail of vault get: secret.data.get(key).ok_or_else(missing key
message).map(clone). -/
def keyLookupOutcome (secret : Secret) (key path : String) :
    Except BoxedError String :=
  match getKV secret.data key with
  | none => Except.error ("No key " ++ key ++ " in secret " ++ path)
  | some v => Except.ok v

/-- get from impl Backend for Client in vault.rs.  The match on the
Secretfile entry, the insert-if-absent fetch step (try! on a fetch
error returns it at once, leaving the cache untouched), the cache read
whose unwrap is modelled by the outer Option (none is the panic), and
the key lookup.  Returns the result together with the updated client
and world. -/
def VaultClient.get {w : Type} (http : Transport w) (world : w)
    (c : VaultClient) (credential : String) :
    Option (Except BoxedError String × VaultClient × w) :=
  match c.secretfile.get credential with
  | none =>
      some (Except.error ("No Secretfile entry for " ++ credential), c, world)
  | some (Location.Keyed path key) =>
    let fetched : Except (BoxedError × w) (VaultClient × w) :=
      if containsKV c.secrets path then Except.ok (c, world)
      else
        match get_secret http world c path with
        | (Except.error e, world2) => Except.error (e, world2)
        | (Except.ok secret, world2) =>
            Except.ok ({ c with secrets := putKV c.secrets path secret }, world2)
    match fetched with
    | Except.error (e, world2) => some (Except.error e, c, world2)
    | Except.ok (c2, world2) =>
      match getKV c2.secrets path with
      | none => none
      | some secret => some (keyLookupOutcome secret key path, c2, world2)

/-- One backend object in the resolver chain (a Box of dyn Backend in
chained.rs): its var and file operations over its private mutable state
of type s, and the current state. -/
structure BackendObj (s : Type) : Type where
  var : s → Secretfile → String → Except BoxedError String × s
  file : s → Secretfile → String → Except BoxedError String × s
  state : s

/-- The chained client (struct Client in chained.rs): the ordered
backend list. -/
structure ChainedClient (s : Type) : Type where
  backends : List (BackendObj s)

/-- The loop body of var in impl Backend for Client of chained.rs:
result starts as the running value, each backend overwrites it, and a
success breaks out leaving the remaining backends untouched. -/
def varLoop {s : Type} (sf : Secretfile) (credential : String) :
    Except BoxedError String → List (BackendObj s) →
    Except BoxedError String × List (BackendObj s)
  | result, [] => (result, [])
  | _, b :: rest =>
    let step := b.var b.state sf credential
    let b2 : BackendObj s := { b with state := step.2 }
    if step.1.isOk then (step.1, b2 :: rest)
    else
      let tail := varLoop sf credential step.1 rest
      (tail.1, b2 :: tail.2)

/-- var from impl Backend for Client in chained.rs: the loop starting
from Err(err("No backend available")). -/
def ChainedClient.var {s : Type} (c : ChainedClient s) (sf : Secretfile)
    (credential : String) : Except BoxedError String × ChainedClient s :=
  let out := varLoop sf credential (Except.error "No backend available") c.backends
  (out.1, ⟨out.2⟩)

/-- The loop body of file in impl Backend for Client of chained.rs,
identical to varLoop except for the backend operation invoked. -/
def fileLoop {s : Type} (sf : Secretfile) (path : String) :
    Except BoxedError String → List (BackendObj s) →
    Except BoxedError String × List (BackendObj s)
  | result, [] => (result, [])
  | _, b :: rest =>
    let step := b.file b.state sf path
    let b2 : BackendObj s := { b with state := step.2 }
    if step.1.isOk then (step.1, b2 :: rest)
    else
      let tail := fileLoop sf path step.1 rest
      (tail.1, b2 :: tail.2)

/-- file from impl Backend for Client in chained.rs. -/
def ChainedClient.file {s : Type} (c : ChainedClient s) (sf : Secretfile)
    (path : String) : Except BoxedError String × ChainedClient s :=
  let out := fileLoop sf path (Except.error "No backend available") c.backends
  (out.1, ⟨out.2⟩)

/-- A backend after its var operation has been invoked once from its
current state: the state advances to the one that invocation returns. -/
def invokeVar {s : Type} (sf : Secretfile) (credential : String)
    (b : BackendObj s) : BackendObj s :=
  { b with state := (b.var b.state sf credential).2 }

/-- Modelled from the spec: the shared fallback control logic of the
resolver (sections 4.1 and 7) as a function of the per-backend results:
the first success wins, otherwise the error of the last backend, and
the no-backend error when the list is empty.  Declared only to compare
the source-derived var and file against it. -/
def specFallbackOutcome : List (Except BoxedError String) →
    Except BoxedError String
  | [] => Except.error "No backend available"
  | [r] => r
  | r :: rs => if r.isOk then r else specFallbackOutcome rs

/-- Fold a sequence of get calls through one client, threading the
client and the world; the panic case (unreachable, see the no-panic
theorem) leaves the state unchanged. -/
def runGets {w : Type} (http : Transport w) :
    VaultClient → w → List String → VaultClient × w
  | c, world, [] => (c, world)
  | c, world, credential :: rest =>
    match VaultClient.get http world c credential with
    | none => (c, world)
    | some (_, c2, world2) => runGets http c2 world2 rest

/-- Wrap a transport so that every request is also appended to a log,
as the url together with whether the fetch succeeded. -/
def logHttp {w : Type} (http : Transport w) :
    Transport (w × List (String × Bool)) :=
  fun wl req =>
    match http wl.1 req with
    | (r, w2) => (r, (w2, wl.2 ++ [(req.url, r.isOk)]))

/-- How many logged fetches went to the url u. -/
def countFetches (log : List (String × Bool)) (u : String) : Nat :=
  (log.filter (fun e => e.1 == u)).length

/-- How many logged successful fetches went to the url u. -/
def countSuccessFetches (log : List (String × Bool)) (u : String) : Nat :=
  (log.filter (fun e => e.1 == u && e.2)).length

/-- The backend methods chained.rs invokes on every element of its
backend list: backend.var(secretfile, credential) in Client::var and
backend.file(secretfile, path) in Client::file.  Recorded from the
source text of src/chained.rs. -/
def chainedConsumedMethods : List String := ["var", "file"]

/-- The methods the impl Backend for Client block of src/vault.rs
defines: the single get(credential), with no var, file, is_enabled or
default.  Recorded from the source text of src/vault.rs. -/
def vaultBackendImplMethods : List String := ["get"]

def wFail1 : BackendObj Nat :=
  { var := fun st _ _ => (Except.error "environment variable not set", st + 1),
    file := fun st _ _ => (Except.error "environment file not found", st + 1),
    state := 0 }

def wFail2 : BackendObj Nat :=
  { var := fun st _ _ => (Except.error "Credential not supported", st + 1),
    file := fun st _ _ => (Except.error "Credential not supported", st + 1),
    state := 0 }

def wOk : BackendObj Nat :=
  { var := fun st _ _ => (Except.ok "dummy", st + 1),
    file := fun st _ _ => (Except.ok "dummy2", st + 1),
    state := 0 }

def wNever : BackendObj Nat :=
  { var := fun st _ _ => (Except.error "never reached", st + 100),
    file := fun st _ _ => (Except.error "never reached", st + 100),
    state := 0 }

def sfEmpty : Secretfile := ⟨[]⟩

def docFoo : Secret := { data := [("value", "bar")], lease_duration := 2592000 }

def sfW : Secretfile :=
  ⟨[("FOO", Location.Keyed "secret/foo" "other"),
    ("BAR", Location.Keyed "secret/foo" "value"),
    ("BAZ", Location.Keyed "secret/baz" "value")]⟩

def cW : VaultClient :=
  { addr := "http://127.0.0.1/", token := "123", secretfile := sfW, secrets := [] }

def cW2 : VaultClient := { cW with secrets := putKV cW.secrets "secret/foo" docFoo }

def httpW : Transport Nat := fun n req =>
  (if req.url = "http://127.0.0.1/v1/secret/foo" then Except.ok docFoo
   else Except.error "connection refused", n + 1)

def httpTrivial : Transport Unit := fun u _ => (Except.ok docFoo, u)

/-- A transport that logs every request it receives. -/
def httpLogReq : Transport (List HttpGet) := fun log req =>
  (Except.ok docFoo, log ++ [req])

def cNoSlash : VaultClient :=
  { addr := "http://host/vault", token := "tok", secretfile := ⟨[]⟩,
    secrets := [] }

def httpFlaky : Transport Nat := fun n _ =>
  (if n = 0 then Except.error "connection refused" else Except.ok docFoo,
   n + 1)

def cFlaky : VaultClient :=
  { addr := "http://127.0.0.1/", token := "123",
    secretfile := ⟨[("FOO", Location.Keyed "secret/foo" "value")]⟩,
    secrets := [] }

lemma varLoop_cons {s : Type} (sf : Secretfile) (credential : String)
    (init : Except BoxedError String) (b : BackendObj s)
    (rest : List (BackendObj s)) :
    varLoop sf credential init (b :: rest) =
      (if ((b.var b.state sf credential).1.isOk) then
        ((b.var b.state sf credential).1, invokeVar sf credential b :: rest)
      else
        ((varLoop sf credential ((b.var b.state sf credential).1) rest).1,
         invokeVar sf credential b ::
           (varLoop sf credential ((b.var b.state sf credential).1) rest).2)) := by
  simp only [varLoop, invokeVar]

lemma varLoop_first_success {s : Type} (sf : Secretfile) (credential : String)
    (init : Except BoxedError String) (pre : List (BackendObj s))
    (b : BackendObj s) (post : List (BackendObj s)) (v : String)
    (hpre : ∀ x ∈ pre, ((x.var x.state sf credential).1.isOk) = false)
    (hb : (b.var b.state sf credential).1 = Except.ok v) :
    varLoop sf credential init (pre ++ b :: post) =
      (Except.ok v,
       pre.map (invokeVar sf credential) ++ invokeVar sf credential b :: post) := by
  induction pre generalizing init with
  | nil =>
      rw [List.nil_append, varLoop_cons, if_pos]
      · rw [List.map_nil, List.nil_append, hb]
      · rw [hb]; rfl
  | cons x xs ih =>
      have hx := hpre x (List.mem_cons_self x xs)
      have hrest : ∀ y ∈ xs, ((y.var y.state sf credential).1.isOk) = false :=
        fun y hy => hpre y (List.mem_cons_of_mem x hy)
      rw [List.cons_append, varLoop_cons, if_neg (by rw [hx]; exact Bool.false_ne_true),
        ih _ hrest, List.map_cons, List.cons_append]

lemma varLoop_all_fail {s : Type} (sf : Secretfile) (credential : String) :
    ∀ (init : Except BoxedError String) (bs : List (BackendObj s)),
    (∀ x ∈ bs, ((x.var x.state sf credential).1.isOk) = false) →
    varLoop sf credential init bs =
      ((bs.map (fun x => (x.var x.state sf credential).1)).getLastD init,
       bs.map (invokeVar sf credential))
  | _, [], _ => by simp [varLoop]
  | init, x :: xs, hfail => by
      have hx := hfail x (List.mem_cons_self x xs)
      have hrest : ∀ y ∈ xs, ((y.var y.state sf credential).1.isOk) = false :=
        fun y hy => hfail y (List.mem_cons_of_mem x hy)
      rw [varLoop_cons, if_neg (by rw [hx]; exact Bool.false_ne_true),
        varLoop_all_fail sf credential _ xs hrest, List.map_cons, List.map_cons,
        List.getLastD_cons]

lemma specFallbackOutcome_cons2 (r r2 : Except BoxedError String)
    (rs : List (Except BoxedError String)) :
    specFallbackOutcome (r :: r2 :: rs) =
      if r.isOk then r else specFallbackOutcome (r2 :: rs) := rfl

lemma varLoop_outcome {s : Type} (sf : Secretfile) (credential : String) :
    ∀ (init : Except BoxedError String) (bs : List (BackendObj s)),
    (varLoop sf credential init bs).1 =
      if bs.isEmpty then init
      else specFallbackOutcome (bs.map fun x => (x.var x.state sf credential).1)
  | _, [] => by simp [varLoop]
  | init, x :: xs => by
      rw [varLoop_cons]
      by_cases hok : ((x.var x.state sf credential).1.isOk) = true
      · cases xs with
        | nil => simp [hok, specFallbackOutcome]
        | cons y ys => simp [hok, specFallbackOutcome]
      · have hok' : ((x.var x.state sf credential).1.isOk) = false :=
          Bool.eq_false_iff.mpr hok
        have ihx := varLoop_outcome sf credential
          ((x.var x.state sf credential).1) xs
        cases xs with
        | nil =>
            simp [hok', ihx, specFallbackOutcome]
        | cons y ys =>
            rw [if_neg (by rw [hok']; exact Bool.false_ne_true), ihx]
            simp only [List.isEmpty_cons, Bool.false_eq_true, if_false,
              List.map_cons, specFallbackOutcome_cons2, hok']

lemma fileLoop_cons {s : Type} (sf : Secretfile) (path : String)
    (init : Except BoxedError String) (b : BackendObj s)
    (rest : List (BackendObj s)) :
    fileLoop sf path init (b :: rest) =
      (if ((b.file b.state sf path).1.isOk) then
        ((b.file b.state sf path).1,
         { b with state := (b.file b.state sf path).2 } :: rest)
      else
        ((fileLoop sf path ((b.file b.state sf path).1) rest).1,
         { b with state := (b.file b.state sf path).2 } ::
           (fileLoop sf path ((b.file b.state sf path).1) rest).2)) := by
  simp only [fileLoop]

lemma fileLoop_outcome {s : Type} (sf : Secretfile) (path : String) :
    ∀ (init : Except BoxedError String) (bs : List (BackendObj s)),
    (fileLoop sf path init bs).1 =
      if bs.isEmpty then init
      else specFallbackOutcome (bs.map fun x => (x.file x.state sf path).1)
  | _, [] => by simp [fileLoop]
  | init, x :: xs => by
      rw [fileLoop_cons]
      by_cases hok : ((x.file x.state sf path).1.isOk) = true
      · cases xs with
        | nil => simp [hok, specFallbackOutcome]
        | cons y ys => simp [hok, specFallbackOutcome]
      · have hok' : ((x.file x.state sf path).1.isOk) = false :=
          Bool.eq_false_iff.mpr hok
        have ihx := fileLoop_outcome sf path ((x.file x.state sf path).1) xs
        cases xs with
        | nil => simp [hok', ihx, specFallbackOutcome]
        | cons y ys =>
            rw [if_neg (by rw [hok']; exact Bool.false_ne_true), ihx]
            simp only [List.isEmpty_cons, Bool.false_eq_true, if_false,
              List.map_cons, specFallbackOutcome_cons2, hok']

lemma vault_get_unknown {w : Type} (http : Transport w) (world : w)
    (c : VaultClient) (credential : String)
    (h : c.secretfile.get credential = none) :
    VaultClient.get http world c credential =
      some (Except.error ("No Secretfile entry for " ++ credential), c, world) := by
  unfold VaultClient.get
  rw [h]

lemma vault_get_cached {w : Type} (http : Transport w) (world : w)
    (c : VaultClient) (credential path key : String) (secret : Secret)
    (hloc : c.secretfile.get credential = some (Location.Keyed path key))
    (hc : getKV c.secrets path = some secret) :
    VaultClient.get http world c credential =
      some (keyLookupOutcome secret key path, c, world) := by
  unfold VaultClient.get
  rw [hloc]
  have hck : containsKV c.secrets path = true := by
    rw [containsKV, hc]; rfl
  simp only [hck, if_true, hc]

lemma vault_get_fetch_ok {w : Type} (http : Transport w) (world : w)
    (c : VaultClient) (credential path key : String) (doc : Secret) (world2 : w)
    (hloc : c.secretfile.get credential = some (Location.Keyed path key))
    (hnc : getKV c.secrets path = none)
    (hhttp : http world { url := vaultUrl c path, xVaultToken := c.token } =
      (Except.ok doc, world2)) :
    VaultClient.get http world c credential =
      some (keyLookupOutcome doc key path,
            { c with secrets := putKV c.secrets path doc }, world2) := by
  unfold VaultClient.get
  rw [hloc]
  have hck : containsKV c.secrets path = false := by
    rw [containsKV, hnc]; rfl
  simp only [hck, Bool.false_eq_true, if_false, get_secret, hhttp, putKV, getKV,
    if_pos rfl]
  simp

lemma vault_get_fetch_err {w : Type} (http : Transport w) (world : w)
    (c : VaultClient) (credential path key : String) (e : BoxedError) (world2 : w)
    (hloc : c.secretfile.get credential = some (Location.Keyed path key))
    (hnc : getKV c.secrets path = none)
    (hhttp : http world { url := vaultUrl c path, xVaultToken := c.token } =
      (Except.error e, world2)) :
    VaultClient.get http world c credential = some (Except.error e, c, world2) := by
  unfold VaultClient.get
  rw [hloc]
  have hck : containsKV c.secrets path = false := by
    rw [containsKV, hnc]; rfl
  simp only [hck, Bool.false_eq_true, if_false, get_secret, hhttp]

lemma strData_append (a b : String) : (a ++ b).data = a.data ++ b.data := by
  cases a; cases b; rfl

lemma baseToLastSlash_append_slash (t : String) :
    baseToLastSlash (t ++ "/") = t ++ "/" := by
  cases t with
  | mk data =>
    show String.mk ((((String.mk data ++ "/").toList).reverse.dropWhile
        (fun ch => ch ≠ '/')).reverse) = String.mk data ++ "/"
    have hdat : (String.mk data ++ "/").toList = data ++ ['/'] := by
      show (String.mk data ++ "/").data = data ++ ['/']
      rw [strData_append]
    rw [hdat]
    have h1 : (data ++ ['/']).reverse = '/' :: data.reverse := by
      simp
    rw [h1]
    have h2 : List.dropWhile (fun ch => ch ≠ '/') ('/' :: data.reverse) =
        '/' :: data.reverse := by
      rw [List.dropWhile_cons]
      simp
    rw [h2]
    have h3 : ('/' :: data.reverse).reverse = data ++ ['/'] := by
      simp
    rw [h3]
    show String.mk (data ++ ['/']) = String.mk data ++ "/"
    rfl

lemma countSuccess_append_true (log : List (String × Bool)) (u : String) :
    countSuccessFetches (log ++ [(u, true)]) u = countSuccessFetches log u + 1 := by
  simp [countSuccessFetches, List.filter_append]

lemma countSuccess_append_other (log : List (String × Bool)) (u u2 : String)
    (b : Bool) (h : u2 ≠ u) :
    countSuccessFetches (log ++ [(u2, b)]) u = countSuccessFetches log u := by
  simp [countSuccessFetches, List.filter_append, h]

lemma countSuccess_append_false (log : List (String × Bool)) (u u2 : String) :
    countSuccessFetches (log ++ [(u2, false)]) u = countSuccessFetches log u := by
  simp [countSuccessFetches, List.filter_append]

lemma strAppend_left_cancel {a b c : String} (h : a ++ b = a ++ c) : b = c := by
  have hd : a.data ++ b.data = a.data ++ c.data := by
    rw [← strData_append, ← strData_append, h]
  have hbc := List.append_cancel_left hd
  cases b with
  | mk bd =>
    cases c with
    | mk cd => exact congrArg String.mk (by simpa using hbc)

lemma vaultUrl_inj {c : VaultClient} {p q : String}
    (h : vaultUrl c p = vaultUrl c q) : p = q := by
  rw [vaultUrl, vaultUrl, urlJoin, urlJoin] at h
  have h2 := strAppend_left_cancel h
  exact strAppend_left_cancel h2

lemma contains_putKV_self (m : List (String × Secret)) (path : String)
    (doc : Secret) : containsKV (putKV m path doc) path = true := by
  simp [containsKV, putKV, getKV]

lemma getKV_putKV_other (m : List (String × Secret)) (path p : String)
    (doc : Secret) (h : ¬path = p) :
    getKV (putKV m path doc) p = getKV m p := by
  simp [putKV, getKV, h]

lemma vaultUrl_secrets_update (c : VaultClient) (s : List (String × Secret))
    (p : String) : vaultUrl { c with secrets := s } p = vaultUrl c p := rfl

lemma runGets_master {w : Type} (http : Transport w) :
    ∀ (creds : List String) (c : VaultClient) (world : w)
      (log : List (String × Bool)),
    ((runGets (logHttp http) c (world, log) creds).1.addr = c.addr) ∧
    (∀ p d, getKV c.secrets p = some d →
       getKV (runGets (logHttp http) c (world, log) creds).1.secrets p = some d) ∧
    (∀ p, containsKV c.secrets p = false →
       countSuccessFetches log (vaultUrl c p) = 0 →
       countSuccessFetches (runGets (logHttp http) c (world, log) creds).2.2
         (vaultUrl c p) ≤ 1) ∧
    (∀ p, containsKV c.secrets p = true →
       countSuccessFetches (runGets (logHttp http) c (world, log) creds).2.2
         (vaultUrl c p) = countSuccessFetches log (vaultUrl c p))
  | [], c, world, log => by
      exact ⟨rfl, fun p d h => h, fun p _ h0 => by simp [runGets, h0],
        fun p _ => rfl⟩
  | credential :: rest, c, world, log => by
      cases hloc : c.secretfile.get credential with
      | none =>
          have hget := vault_get_unknown (logHttp http) (world, log) c
            credential hloc
          have hrun : runGets (logHttp http) c (world, log) (credential :: rest) =
              runGets (logHttp http) c (world, log) rest := by
            simp only [runGets, hget]
          rw [hrun]
          exact runGets_master http rest c world log
      | some loc =>
        cases loc with
        | Keyed path key =>
          cases hc : getKV c.secrets path with
          | some secret =>
              have hget := vault_get_cached (logHttp http) (world, log) c
                credential path key secret hloc hc
              have hrun :
                  runGets (logHttp http) c (world, log) (credential :: rest) =
                    runGets (logHttp http) c (world, log) rest := by
                simp only [runGets, hget]
              rw [hrun]
              exact runGets_master http rest c world log
          | none =>
            rcases hres : http world ⟨vaultUrl c path, c.token⟩ with ⟨r, world2⟩
            cases r with
            | error e =>
                have hhttp : logHttp http (world, log)
                    { url := vaultUrl c path, xVaultToken := c.token } =
                      (Except.error e,
                       (world2, log ++ [(vaultUrl c path, false)])) := by
                  simp [logHttp, hres, Except.isOk, Except.toBool]
                have hget := vault_get_fetch_err (logHttp http) (world, log) c
                  credential path key e
                  (world2, log ++ [(vaultUrl c path, false)]) hloc hc hhttp
                have hrun :
                    runGets (logHttp http) c (world, log) (credential :: rest) =
                      runGets (logHttp http) c
                        (world2, log ++ [(vaultUrl c path, false)]) rest := by
                  simp only [runGets, hget]
                rw [hrun]
                have IH := runGets_master http rest c world2
                  (log ++ [(vaultUrl c path, false)])
                refine ⟨IH.1, IH.2.1, fun p hp h0 => ?_, fun p hp => ?_⟩
                · exact IH.2.2.1 p hp
                    (by rw [countSuccess_append_false, h0])
                · rw [IH.2.2.2 p hp, countSuccess_append_false]
            | ok doc =>
                have hhttp : logHttp http (world, log)
                    { url := vaultUrl c path, xVaultToken := c.token } =
                      (Except.ok doc,
                       (world2, log ++ [(vaultUrl c path, true)])) := by
                  simp [logHttp, hres, Except.isOk, Except.toBool]
                have hget := vault_get_fetch_ok (logHttp http) (world, log) c
                  credential path key doc
                  (world2, log ++ [(vaultUrl c path, true)]) hloc hc hhttp
                have hrun :
                    runGets (logHttp http) c (world, log) (credential :: rest) =
                      runGets (logHttp http)
                        { c with secrets := putKV c.secrets path doc }
                        (world2, log ++ [(vaultUrl c path, true)]) rest := by
                  simp only [runGets, hget]
                rw [hrun]
                have IH := runGets_master http rest
                  { c with secrets := putKV c.secrets path doc } world2
                  (log ++ [(vaultUrl c path, true)])
                simp only [vaultUrl_secrets_update] at IH
                refine ⟨IH.1, fun p d hpd => ?_, fun p hp h0 => ?_,
                  fun p hp => ?_⟩
                · have hne : ¬path = p := by
                    intro hEq
                    rw [hEq] at hc
                    rw [hc] at hpd
                    exact Option.noConfusion hpd
                  exact IH.2.1 p d
                    (by rw [getKV_putKV_other c.secrets path p doc hne]
                        exact hpd)
                · by_cases hpq : p = path
                  · subst hpq
                    rw [IH.2.2.2 p (contains_putKV_self c.secrets p doc),
                      countSuccess_append_true, h0]
                  · have hne : ¬path = p := fun hEq => hpq hEq.symm
                    have hu : vaultUrl c path ≠ vaultUrl c p :=
                      fun hEq => hne (vaultUrl_inj hEq)
                    have hcont :
                        containsKV (putKV c.secrets path doc) p = false := by
                      rw [containsKV] at hp ⊢
                      rw [getKV_putKV_other c.secrets path p doc hne]
                      exact hp
                    exact IH.2.2.1 p hcont
                      (by rw [countSuccess_append_other _ _ _ _ hu, h0])
                · have hne : ¬path = p := by
                    intro hEq
                    rw [← hEq] at hp
                    rw [containsKV, hc] at hp
                    simp at hp
                  have hu : vaultUrl c path ≠ vaultUrl c p :=
                    fun hEq => hne (vaultUrl_inj hEq)
                  have hcont :
                      containsKV (putKV c.secrets path doc) p = true := by
                    rw [containsKV] at hp ⊢
                    rw [getKV_putKV_other c.secrets path p doc hne]
                    exact hp
                  rw [IH.2.2.2 p hcont, countSuccess_append_other _ _ _ _ hu]

/-- C1: for every backend list and input, var consults backends in list
order and returns the first success; every backend before the first
success was invoked once and failed, and the backends after it are
returned untouched, never invoked. -/
theorem chained_var_first_success {s : Type} (sf : Secretfile)
    (credential : String) (pre : List (BackendObj s)) (b : BackendObj s)
    (post : List (BackendObj s)) (v : String)
    (hpre : ∀ x ∈ pre, ((x.var x.state sf credential).1.isOk) = false)
    (hb : (b.var b.state sf credential).1 = Except.ok v) :
    ChainedClient.var ⟨pre ++ b :: post⟩ sf credential =
      (Except.ok v,
       ⟨pre.map (invokeVar sf credential) ++ invokeVar sf credential b :: post⟩) := by
  unfold ChainedClient.var
  rw [varLoop_first_success sf credential _ pre b post v hpre hb]

/-- C1 witness: a failing backend, then a succeeding one, then one that
must stay untouched. -/
theorem chained_var_first_success_witness :
    ChainedClient.var ⟨[wFail1, wOk, wNever]⟩ sfEmpty "DUMMY" =
      (Except.ok "dummy",
       ⟨[wFail1].map (invokeVar sfEmpty "DUMMY") ++
          invokeVar sfEmpty "DUMMY" wOk :: [wNever]⟩) :=
  chained_var_first_success sfEmpty "DUMMY" [wFail1] wOk [wNever] "dummy"
    (by intro x hx; rw [List.mem_singleton] at hx; subst hx; rfl) rfl

/-- C2: with no backend the resolver fails with the no-backend error;
when every backend fails it returns the error of the last backend in
the list, every earlier error being discarded. -/
theorem chained_var_empty_or_last_error {s : Type} (sf : Secretfile)
    (credential : String) (bs : List (BackendObj s))
    (hfail : ∀ x ∈ bs, ((x.var x.state sf credential).1.isOk) = false) :
    ChainedClient.var (⟨[]⟩ : ChainedClient s) sf credential =
      (Except.error "No backend available", ⟨[]⟩) ∧
    ChainedClient.var ⟨bs⟩ sf credential =
      ((bs.map (fun x => (x.var x.state sf credential).1)).getLastD
          (Except.error "No backend available"),
       ⟨bs.map (invokeVar sf credential)⟩) := by
  constructor
  · rfl
  · unfold ChainedClient.var
    rw [varLoop_all_fail sf credential _ bs hfail]

/-- C2 witness: two failing backends; the resolver returns the error of
the second, and on the empty chain the no-backend error. -/
theorem chained_var_empty_or_last_error_witness :
    ChainedClient.var (⟨[]⟩ : ChainedClient Nat) sfEmpty "NOSUCHVAR" =
      (Except.error "No backend available", ⟨[]⟩) ∧
    ChainedClient.var ⟨[wFail1, wFail2]⟩ sfEmpty "NOSUCHVAR" =
      (([wFail1, wFail2].map
          (fun x => (x.var x.state sfEmpty "NOSUCHVAR").1)).getLastD
          (Except.error "No backend available"),
       ⟨[wFail1, wFail2].map (invokeVar sfEmpty "NOSUCHVAR")⟩) :=
  chained_var_empty_or_last_error sfEmpty "NOSUCHVAR" [wFail1, wFail2]
    (by
      intro x hx
      rw [List.mem_cons, List.mem_singleton] at hx
      rcases hx with h | h <;> (subst h; rfl))

/-- C3 amended: across any sequence of get calls on one client, no
cache entry is ever removed or replaced, at most one successful fetch
is performed per distinct path (a failed fetch does not populate the
cache, so such a path may be fetched again), and a get whose path is
already cached performs no fetch at all: it returns the answer from
the cached document with the client and the world unchanged, whatever
the transport would now return. -/
theorem vault_fetch_once_amended {w : Type} (http : Transport w) (world : w)
    (c : VaultClient) (creds : List String) :
    (∀ p d, getKV c.secrets p = some d →
       getKV (runGets (logHttp http) c (world, []) creds).1.secrets p = some d) ∧
    (∀ p, countSuccessFetches
        (runGets (logHttp http) c (world, []) creds).2.2 (vaultUrl c p) ≤ 1) ∧
    (∀ credential path key doc,
       c.secretfile.get credential = some (Location.Keyed path key) →
       getKV c.secrets path = some doc →
       VaultClient.get http world c credential =
         some (keyLookupOutcome doc key path, c, world)) := by
  have master := runGets_master http creds c world []
  refine ⟨master.2.1, fun p => ?_,
    fun credential path key doc hloc hcached =>
      vault_get_cached http world c credential path key doc hloc hcached⟩
  by_cases hp : containsKV c.secrets p = true
  · rw [master.2.2.2 p hp]
    exact Nat.zero_le 1
  · exact master.2.2.1 p (Bool.eq_false_iff.mpr hp) rfl

/-- C3 counterexample: a transport that fails on its first round trip
makes two get calls for FOO fetch the path secret/foo twice, so more
than one network fetch can be performed for one distinct path. -/
theorem vault_fetch_once_counterexample :
    (runGets (logHttp httpFlaky) cFlaky (0, []) ["FOO", "FOO"]).2.2 =
      [("http://127.0.0.1/v1/secret/foo", false),
       ("http://127.0.0.1/v1/secret/foo", true)] ∧
    countFetches (runGets (logHttp httpFlaky) cFlaky (0, []) ["FOO", "FOO"]).2.2
      "http://127.0.0.1/v1/secret/foo" = 2 ∧
    ¬ (countFetches
        (runGets (logHttp httpFlaky) cFlaky (0, []) ["FOO", "FOO"]).2.2
        "http://127.0.0.1/v1/secret/foo" ≤ 1) := by
  refine ⟨by decide, by decide, by decide⟩

/-- C4: when the document for the keyed location lacks the requested
key, get fails with the message naming the key and the path; with the
document already cached nothing is fetched (client and world
unchanged), and after a fresh fetch no second fetch happens (the world
is exactly the one the single transport call returned). -/
theorem vault_missing_key {w : Type} (http : Transport w) (world : w)
    (c : VaultClient) (credential path key : String)
    (hloc : c.secretfile.get credential = some (Location.Keyed path key)) :
    (∀ doc : Secret, getKV c.secrets path = some doc →
       getKV doc.data key = none →
       VaultClient.get http world c credential =
         some (Except.error ("No key " ++ key ++ " in secret " ++ path),
               c, world)) ∧
    (∀ (doc : Secret) (world2 : w), getKV c.secrets path = none →
       http world { url := vaultUrl c path, xVaultToken := c.token } =
         (Except.ok doc, world2) →
       getKV doc.data key = none →
       VaultClient.get http world c credential =
         some (Except.error ("No key " ++ key ++ " in secret " ++ path),
               { c with secrets := putKV c.secrets path doc }, world2)) := by
  constructor
  · intro doc hc hk
    rw [vault_get_cached http world c credential path key doc hloc hc]
    simp only [keyLookupOutcome, hk]
  · intro doc world2 hnc hhttp hk
    rw [vault_get_fetch_ok http world c credential path key doc world2 hloc hnc hhttp]
    simp only [keyLookupOutcome, hk]

/-- C4 witness: the cached document for secret/foo has only the key
value, so requesting FOO (key other) fails with the message naming key
and path, with client and world unchanged. -/
theorem vault_missing_key_witness :
    VaultClient.get httpW 7 cW2 "FOO" =
      some (Except.error "No key other in secret secret/foo", cW2, 7) :=
  (vault_missing_key httpW 7 cW2 "FOO" "secret/foo" "other" rfl).1 docFoo rfl rfl

/-- C5: a credential absent from the Secretfile fails with the
no-entry error; the client (cache included) and the world are returned
unchanged for every transport, so no network call and no cache
mutation happens. -/
theorem vault_unknown_credential {w : Type} (http : Transport w) (world : w)
    (c : VaultClient) (credential : String)
    (h : c.secretfile.get credential = none) :
    VaultClient.get http world c credential =
      some (Except.error ("No Secretfile entry for " ++ credential), c, world) :=
  vault_get_unknown http world c credential h

/-- C5 witness: NOSUCHVAR has no Secretfile entry; the client and the
world come back unchanged. -/
theorem vault_unknown_credential_witness :
    VaultClient.get httpW 0 cW "NOSUCHVAR" =
      some (Except.error "No Secretfile entry for NOSUCHVAR", cW, 0) :=
  vault_unknown_credential httpW 0 cW "NOSUCHVAR" rfl

/-- C6: the interface the resolver consumes and the one the Vault
backend implements do not match: the Vault impl block provides only
get, and neither of the two operations the resolver invokes on its
chained backends. -/
theorem vault_backend_interface_mismatch :
    vaultBackendImplMethods.contains "get" = true ∧
    chainedConsumedMethods.any
      (fun m => vaultBackendImplMethods.contains m) = false := by
  decide

/-- C7 amended: the fetch issues exactly one GET, carrying the static
token in the X-Vault-Token header, to the resolution of the relative
reference "v1/" ++ path against the configured base address; whenever
the base address ends with a slash, the path has no "." or ".."
segments and every character of the path is one the URL path encoder
keeps verbatim, that URL is exactly baseAddress ++ "v1/" ++ path.
The last two hypotheses confine the statement to the region where the
merge-only urlJoin model agrees with the dot-segment removal and
percent-encoding of the real join, so that the equality proved here
is one the program satisfies. -/
theorem vault_request_url {w : Type} (http : Transport w) (world : w)
    (c : VaultClient) (path t : String) (haddr : c.addr = t ++ "/")
    (hsafe : pathSafe path = true) (hdot : noDotSegments path = true) :
    get_secret http world c path =
      http world { url := c.addr ++ "v1/" ++ path, xVaultToken := c.token } := by
  rw [get_secret, vaultUrl, urlJoin, haddr, baseToLastSlash_append_slash]
  simp only [← String.append_assoc]

/-- C7 witness: with the base address http://127.0.0.1/ and the plain
path secret/foo (no dot segments, every character path-safe) the
request URL is the plain concatenation. -/
theorem vault_request_url_witness :
    get_secret httpTrivial () cW "secret/foo" =
      httpTrivial ()
        { url := "http://127.0.0.1/" ++ "v1/" ++ "secret/foo",
          xVaultToken := "123" } :=
  vault_request_url httpTrivial () cW "secret/foo" "http://127.0.0.1" rfl
    (by decide) (by decide)

/-- C7 counterexample: with base address http://host/vault the single
issued request goes to http://host/v1/p, which is not the claimed
baseAddress ++ "v1/" ++ path (that would be http://host/vaultv1/p). -/
theorem vault_request_url_counterexample :
    (get_secret httpLogReq [] cNoSlash "p").2 =
      [{ url := "http://host/v1/p", xVaultToken := "tok" }] ∧
    (("http://host/v1/p" : String) =
      "http://host/vault" ++ "v1/" ++ "p") = False := by
  constructor
  · decide
  · simp only [eq_iff_iff, iff_false]
    decide

/-- C8: var and file share one fallback control logic: both equal the
spec function of the per-backend results (first success wins, otherwise
the last error, the no-backend error on an empty list). -/
theorem chained_var_file_same_control {s : Type} (sf : Secretfile)
    (credential path : String) (bs : List (BackendObj s)) :
    (ChainedClient.var ⟨bs⟩ sf credential).1 =
      specFallbackOutcome (bs.map fun x => (x.var x.state sf credential).1) ∧
    (ChainedClient.file ⟨bs⟩ sf path).1 =
      specFallbackOutcome (bs.map fun x => (x.file x.state sf path).1) := by
  constructor
  · show (varLoop sf credential (Except.error "No backend available") bs).1 = _
    rw [varLoop_outcome sf credential _ bs]
    cases bs with
    | nil => rfl
    | cons x xs => rw [if_neg (by simp)]
  · show (fileLoop sf path (Except.error "No backend available") bs).1 = _
    rw [fileLoop_outcome sf path _ bs]
    cases bs with
    | nil => rfl
    | cons x xs => rw [if_neg (by simp)]

/-- C9: get never reaches the unwrap with an empty cache slot: the
cache lookup after the insert-if-absent step always finds the
document, so the panic case (modelled by none) never happens. -/
theorem vault_get_no_panic {w : Type} (http : Transport w) (world : w)
    (c : VaultClient) (credential : String) :
    (VaultClient.get http world c credential).isSome = true := by
  cases hloc : c.secretfile.get credential with
  | none => rw [vault_get_unknown http world c credential hloc]; rfl
  | some loc =>
    cases loc with
    | Keyed path key =>
      cases hc : getKV c.secrets path with
      | some secret =>
          rw [vault_get_cached http world c credential path key secret hloc hc]
          rfl
      | none =>
        rcases hres : http world { url := vaultUrl c path, xVaultToken := c.token }
          with ⟨r, world2⟩
        cases r with
        | ok doc =>
            rw [vault_get_fetch_ok http world c credential path key doc world2
              hloc hc hres]
            rfl
        | error e =>
            rw [vault_get_fetch_err http world c credential path key e world2
              hloc hc hres]
            rfl

/-- C10: get is not atomic on failure: after a fresh fetch whose
document lacks the key, the error is returned with the document kept
in the cache, and any later lookup under that path is then served with
no fetch; the unknown-credential and fetch-failure outcomes return the
client unchanged. -/
theorem vault_missing_key_keeps_cache {w : Type} (http : Transport w)
    (world : w) (c : VaultClient) :
    (∀ (credential path key : String) (doc : Secret) (world2 : w),
       c.secretfile.get credential = some (Location.Keyed path key) →
       getKV c.secrets path = none →
       http world { url := vaultUrl c path, xVaultToken := c.token } =
         (Except.ok doc, world2) →
       getKV doc.data key = none →
       VaultClient.get http world c credential =
         some (Except.error ("No key " ++ key ++ " in secret " ++ path),
               { c with secrets := putKV c.secrets path doc }, world2) ∧
       (∀ (w2 : Type) (http2 : Transport w2) (world3 : w2)
          (credential2 key2 : String),
          c.secretfile.get credential2 = some (Location.Keyed path key2) →
          VaultClient.get http2 world3
              { c with secrets := putKV c.secrets path doc } credential2 =
            some (keyLookupOutcome doc key2 path,
                  { c with secrets := putKV c.secrets path doc }, world3))) ∧
    (∀ credential : String, c.secretfile.get credential = none →
       VaultClient.get http world c credential =
         some (Except.error ("No Secretfile entry for " ++ credential),
               c, world)) ∧
    (∀ (credential path key : String) (e : BoxedError) (world2 : w),
       c.secretfile.get credential = some (Location.Keyed path key) →
       getKV c.secrets path = none →
       http world { url := vaultUrl c path, xVaultToken := c.token } =
         (Except.error e, world2) →
       VaultClient.get http world c credential =
         some (Except.error e, c, world2)) := by
  refine ⟨?_, ?_, ?_⟩
  · intro credential path key doc world2 hloc hnc hhttp hk
    constructor
    · rw [vault_get_fetch_ok http world c credential path key doc world2
        hloc hnc hhttp]
      simp only [keyLookupOutcome, hk]
    · intro w2 http2 world3 credential2 key2 hloc2
      exact vault_get_cached http2 world3 _ credential2 path key2 doc hloc2
        (by simp [putKV, getKV])
  · intro credential h
    exact vault_get_unknown http world c credential h
  · intro credential path key e world2 hloc hnc hhttp
    exact vault_get_fetch_err http world c credential path key e world2 hloc hnc hhttp

/-- C10 witness: a fresh fetch for FOO fails on the missing key other
yet leaves the document cached, so BAR under the same path is then
served with no fetch; the unknown credential NOPE and the failing
fetch for BAZ leave the client unchanged. -/
theorem vault_missing_key_keeps_cache_witness :
    VaultClient.get httpW 0 cW "FOO" =
      some (Except.error "No key other in secret secret/foo", cW2, 1) ∧
    VaultClient.get httpW 5 cW2 "BAR" = some (Except.ok "bar", cW2, 5) ∧
    VaultClient.get httpW 0 cW "NOPE" =
      some (Except.error "No Secretfile entry for NOPE", cW, 0) ∧
    VaultClient.get httpW 0 cW "BAZ" =
      some (Except.error "connection refused", cW, 1) := by
  have h := vault_missing_key_keeps_cache httpW 0 cW
  have h1 := h.1 "FOO" "secret/foo" "other" docFoo 1 rfl rfl rfl rfl
  exact ⟨h1.1, h1.2 Nat httpW 5 "BAR" "value" rfl,
    h.2.1 "NOPE" rfl,
    h.2.2 "BAZ" "secret/baz" "value" "connection refused" 1 rfl rfl rfl⟩
